import Mathlib

/-!
Shallow embedding of the vibevoice push-to-talk dictation CLI
(src/app/cli.py).  The embedded core is the capture-and-dispatch state
machine: chord detection over the right-ctrl / right-shift keys
(`on_press` / `on_release`), audio frame accumulation (`callback`), clip
finalization with its empty/short guards, the transcription hand-off, and
the macro dispatcher (`process_typed`).

Modelling conventions:
* Audio samples are abstracted as integers; the embedded logic only
  inspects frame identity, order, and sample counts (the int16
  quantization `audio_data_np * 32767` preserves the sample count and is
  therefore not modelled).
* The keyboard, audio and network collaborators are modelled as an event
  stream: press/release events of keys and frame deliveries, processed
  one at a time (the Python callbacks are serialized by the interpreter).
* The remote transcription backend is a parameter (`Config.backend`)
  mapping the finalized clip to either recognized text or a classified
  failure.
* Observable effects (progress restarts, drops, requests, action
  invocations, injected keystrokes) are collected in an output trace.
-/

namespace VibeVoice

/-- One captured audio frame: the block of mono samples delivered by a
single audio-input callback (`indata.copy()` in `callback`). -/
abbrev Frame := List Int

/-- The constant `MIN_SAMPLES_FOR_TRANSCRIBE = 8000` from cli.py. -/
def MIN_SAMPLES_FOR_TRANSCRIBE : Nat := 8000

/-- Keys as seen by the pynput callbacks: the two designated chord keys
(`Key.ctrl_r`, `Key.shift_r`) and every other key collapsed into one
constructor (the handlers only compare against the two designated keys). -/
inductive Key where
  | ctrlR
  | shiftR
  | other
deriving DecidableEq

/-- An input event: a key press, a key release, or the delivery of one
audio frame by the input-stream callback. -/
inductive Event where
  | press (k : Key)
  | release (k : Key)
  | frame (f : Frame)
deriving DecidableEq

/-- Modelled from the spec: the `macros` module (the concrete `MACROS`
table) is imported by cli.py but is not part of the source tree.  Per the
spec a macro value is either a literal replacement string or a
zero-argument action; actions are modelled as opaque names with no effect
on the table (the spec states the table is loaded once and read-only
during operation).  The callable-versus-string dynamic dispatch in
`process_typed` is modelled by matching on this tagged variant. -/
inductive MacroVal where
  | repl (s : String)
  | action (name : String)
deriving DecidableEq

/-- A macro table: insertion-ordered key/value pairs, matching the
iteration order of the Python dict `MACROS.items()`. -/
abbrev MacroTable := List (String × MacroVal)

/-- Outcome of one `process_typed` call: the final value of the `text`
variable (typed iff nonempty) and the actions invoked, in order. -/
structure DispatchResult where
  output : String
  invoked : List String
deriving DecidableEq

/-- The normalization in `process_typed`:
`"".join(char for char in text.lower() if char.isalnum())`. -/
def sluggify (text : String) : String :=
  String.mk ((text.data.map Char.toLower).filter (fun c => c.isAlphanum))

/-- The `for key, value in MACROS.items()` loop of `process_typed`,
threading the mutable `text` variable.  A matching callable value is
invoked, `text` is set to `""`, and the loop continues (no `break` in the
source); a matching string value replaces `text` and breaks. -/
def macroLoop (slug : String) (tbl : MacroTable) (text : String) :
    DispatchResult :=
  match tbl with
  | [] => ⟨text, []⟩
  | (key, value) :: rest =>
    if slug = key then
      match value with
      | MacroVal.action a =>
        let r := macroLoop slug rest ""
        ⟨r.output, a :: r.invoked⟩
      | MacroVal.repl v => ⟨v, []⟩
    else
      macroLoop slug rest text

/-- The `process_typed` function of cli.py: with raw mode off, normalize
and run the macro loop; the caller types the resulting text iff nonempty. -/
def process_typed (rawMode : Bool) (tbl : MacroTable) (text : String) :
    DispatchResult :=
  if rawMode then ⟨text, []⟩
  else macroLoop (sluggify text) tbl text

/-- The trailing `if text: keyboard_controller.type(text)` of
`process_typed`: the keystrokes injected into the output sink (empty list
when the final text is empty). -/
def typedKeys (r : DispatchResult) : List String :=
  if r.output = "" then [] else [r.output]

/-- Result of the transcription request issued in `on_release`:
`transportErr` models `requests.exceptions.RequestException` (backend
unreachable, connection refused, timeout, and the `HTTPError` raised by
`raise_for_status` on a non-success status); `payloadErr` models any
other exception while extracting `response.json()["text"]`; `ok`
carries the recognized text. -/
inductive TransResult where
  | transportErr
  | payloadErr
  | ok (text : String)
deriving DecidableEq

/-- Static configuration of a run: the `RAW_MODE` flag, the `MACROS`
table and the transcription backend viewed as a function from the
finalized clip to its response. -/
structure Config where
  rawMode : Bool
  macros : MacroTable
  backend : Frame → TransResult

/-- The mutable state shared by the cli.py callbacks: `pressed_ctrl`,
`pressed_shift`, `recording` and the `audio_data` frame list. -/
structure AppState where
  pressedCtrl : Bool
  pressedShift : Bool
  recording : Bool
  audioData : List Frame
deriving DecidableEq

/-- The initial state of `main`: no key pressed, not recording, empty
audio buffer. -/
def init : AppState := ⟨false, false, false, []⟩

/-- Observable outputs of processing one event:
`engaged` marks entry into the chord-engage block of `on_press` (progress
restart plus `audio_data = []`); `released` marks entry into the
finalize branch of `on_release`; `noAudio` is the caught `ValueError` of
`np.concatenate` on an empty frame list; `finalized c` marks a successful
concatenation yielding clip `c`; `shortDrop n` is the
"Ignoring short response" drop of an `n`-sample clip; `transcribeReq c`
is the POST of clip `c` to the `/transcribe` endpoint; `reqError` /
`procError` are the two exception reports; `invoked a` is the execution
of a callable macro; `typed s` is the keystroke injection of `s`. -/
inductive Out where
  | engaged
  | released
  | noAudio
  | finalized (clip : Frame)
  | shortDrop (n : Nat)
  | transcribeReq (clip : Frame)
  | reqError
  | procError
  | invoked (a : String)
  | typed (s : String)
deriving DecidableEq

/-- The `if transcript:` guard and the `process_typed` call of
`on_release`: an empty transcript is dropped before macro dispatch;
otherwise the dispatcher runs, invoking actions and typing the final
text iff nonempty. -/
def dispatchOuts (cfg : Config) (text : String) : List Out :=
  if text = "" then []
  else
    (process_typed cfg.rawMode cfg.macros text).invoked.map Out.invoked ++
      (typedKeys (process_typed cfg.rawMode cfg.macros text)).map Out.typed

/-- The finalize-and-transcribe tail of `on_release`, operating on the
`audio_data` captured so far (which the source never clears here):
concatenation (`ValueError` on an empty list), the
`MIN_SAMPLES_FOR_TRANSCRIBE` guard, the POST, and transcript handling. -/
def finalizeOuts (cfg : Config) (audioData : List Frame) : List Out :=
  match audioData with
  | [] => [Out.noAudio]
  | _ :: _ =>
    Out.finalized audioData.flatten ::
      if audioData.flatten.length < MIN_SAMPLES_FOR_TRANSCRIBE then
        [Out.shortDrop audioData.flatten.length]
      else
        Out.transcribeReq audioData.flatten ::
          match cfg.backend audioData.flatten with
          | TransResult.transportErr => [Out.reqError]
          | TransResult.payloadErr => [Out.procError]
          | TransResult.ok t => dispatchOuts cfg t

/-- The `on_press` handler: set the designated key's boolean, then (with
the updated booleans) enter the engage block whenever both are true,
setting `recording = True` and resetting `audio_data = []`. -/
def onPress (s : AppState) (k : Key) : AppState × List Out :=
  let pc := if k = Key.ctrlR then true else s.pressedCtrl
  let ps := if k = Key.shiftR then true else s.pressedShift
  if pc && ps then
    (⟨pc, ps, true, []⟩, [Out.engaged])
  else
    (⟨pc, ps, s.recording, s.audioData⟩, [])

/-- The `on_release` handler: clear the designated key's boolean, then
enter the finalize branch when the released key is `RECORD_KEY`
(`shift_r`) and at least one of the updated booleans is false (after a
`shift_r` release the first disjunct always holds).  The branch sets
`recording = False` and runs the finalize tail; `audio_data` itself is
never cleared. -/
def onRelease (cfg : Config) (s : AppState) (k : Key) : AppState × List Out :=
  let pc := if k = Key.ctrlR then false else s.pressedCtrl
  let ps := if k = Key.shiftR then false else s.pressedShift
  if k = Key.shiftR ∧ (ps = false ∨ pc = false) then
    (⟨pc, ps, false, s.audioData⟩, Out.released :: finalizeOuts cfg s.audioData)
  else
    (⟨pc, ps, s.recording, s.audioData⟩, [])

/-- The audio-input `callback`: append the delivered frame to
`audio_data` iff `recording` is set. -/
def onFrame (s : AppState) (f : Frame) : AppState × List Out :=
  if s.recording then
    (⟨s.pressedCtrl, s.pressedShift, s.recording, s.audioData ++ [f]⟩, [])
  else
    (s, [])

/-- Process one event. -/
def step (cfg : Config) (s : AppState) (e : Event) : AppState × List Out :=
  match e with
  | Event.press k => onPress s k
  | Event.release k => onRelease cfg s k
  | Event.frame f => onFrame s f

/-- Process an event sequence, accumulating the output trace. -/
def run (cfg : Config) (s : AppState) : List Event → AppState × List Out
  | [] => (s, [])
  | e :: es =>
    ((run cfg (step cfg s e).1 es).1,
      (step cfg s e).2 ++ (run cfg (step cfg s e).1 es).2)

/-- The contribution of one event to the recorded-frame log: a frame
delivered while `recording` is set, nothing otherwise. -/
def frameContrib (s : AppState) : Event → List Frame
  | Event.frame f => if s.recording then [f] else []
  | _ => []

/-- The frames delivered by the audio callback while `recording` was set,
in arrival order, along a run. -/
def deliveredWhileRec (cfg : Config) (s : AppState) : List Event → List Frame
  | [] => []
  | e :: es => frameContrib s e ++ deliveredWhileRec cfg (step cfg s e).1 es

/-- A fixed configuration for concrete counterexample runs: raw mode off
(the source constant `RAW_MODE = False`), empty macro table, backend
always failing with a transport error. -/
def cfgCE : Config := ⟨false, [], fun _ => TransResult.transportErr⟩

/-- Extract the finalized clips from an output trace. -/
def finClip : Out → Option Frame
  | Out.finalized c => some c
  | _ => none

/-- The macro table of testable property 4 of the spec:
wake maps to a replacement string, stop to an action. -/
def tblC5 : MacroTable :=
  [("wake", MacroVal.repl "hello world"), ("stop", MacroVal.action "A")]

/-- Dispatch viewed with its only side-effect trace made explicit: `log`
is the list of actions invoked by earlier dispatches; a new dispatch
appends its own invocations and returns its result. -/
def runDispatch (log : List String) (rawMode : Bool) (tbl : MacroTable)
    (text : String) : List String × DispatchResult :=
  (log ++ (process_typed rawMode tbl text).invoked,
    process_typed rawMode tbl text)

lemma mem_dispatchOuts (cfg : Config) (t : String) (o : Out)
    (h : o ∈ dispatchOuts cfg t) :
    (∃ a, o = Out.invoked a) ∨ (∃ s, o = Out.typed s) := by
  unfold dispatchOuts at h
  split at h
  · simp at h
  · rcases List.mem_append.mp h with h | h
    · rcases List.mem_map.mp h with ⟨a, -, ha⟩
      exact Or.inl ⟨a, ha.symm⟩
    · rcases List.mem_map.mp h with ⟨t, -, ht⟩
      exact Or.inr ⟨t, ht.symm⟩

lemma mem_finalizeOuts_cases (cfg : Config) (ad : List Frame) (o : Out)
    (h : o ∈ finalizeOuts cfg ad) :
    o = Out.noAudio ∨ o = Out.finalized ad.flatten ∨
      o = Out.shortDrop ad.flatten.length ∨
      o = Out.transcribeReq ad.flatten ∨ o = Out.reqError ∨
      o = Out.procError ∨ (∃ a, o = Out.invoked a) ∨
      (∃ t, o = Out.typed t) := by
  unfold finalizeOuts at h
  cases ad with
  | nil =>
    simp only [List.mem_singleton] at h
    exact Or.inl h
  | cons a l =>
    rcases List.mem_cons.mp h with h | h
    · exact Or.inr (Or.inl h)
    · split at h
      · simp only [List.mem_singleton] at h
        exact Or.inr (Or.inr (Or.inl h))
      · rcases List.mem_cons.mp h with h | h
        · exact Or.inr (Or.inr (Or.inr (Or.inl h)))
        · split at h
          · simp only [List.mem_singleton] at h
            exact Or.inr (Or.inr (Or.inr (Or.inr (Or.inl h))))
          · simp only [List.mem_singleton] at h
            exact Or.inr (Or.inr (Or.inr (Or.inr (Or.inr (Or.inl h)))))
          · rcases mem_dispatchOuts cfg _ o h with h | h
            · exact Or.inr (Or.inr (Or.inr (Or.inr (Or.inr (Or.inr (Or.inl h))))))
            · exact Or.inr (Or.inr (Or.inr (Or.inr (Or.inr (Or.inr (Or.inr h))))))

lemma engaged_not_mem_finalizeOuts (cfg : Config) (ad : List Frame) :
    Out.engaged ∉ finalizeOuts cfg ad := by
  intro h
  rcases mem_finalizeOuts_cases cfg ad _ h with h|h|h|h|h|h|⟨a,h⟩|⟨t,h⟩ <;>
    simp at h

lemma finalized_mem_finalizeOuts (cfg : Config) (ad : List Frame) (c : Frame)
    (h : Out.finalized c ∈ finalizeOuts cfg ad) : c = ad.flatten := by
  rcases mem_finalizeOuts_cases cfg ad _ h with h|h|h|h|h|h|⟨a,h⟩|⟨t,h⟩ <;>
    simp_all

/-- Claim C5: with raw mode off and the table mapping wake to the
replacement "hello world" and stop to action A, the dispatcher matches
the whole normalized string: "Wake" is replaced by "hello world" and
typed; "please Stop now" normalizes to "pleasestopnow", matches no key,
and is typed unchanged with no action invoked; "STOP" invokes action A
and types nothing. -/
theorem C5_macro_dispatch_examples :
    process_typed false tblC5 "Wake" = ⟨"hello world", []⟩ ∧
    typedKeys (process_typed false tblC5 "Wake") = ["hello world"] ∧
    process_typed false tblC5 "please Stop now" = ⟨"please Stop now", []⟩ ∧
    typedKeys (process_typed false tblC5 "please Stop now") =
      ["please Stop now"] ∧
    process_typed false tblC5 "STOP" = ⟨"", ["A"]⟩ ∧
    typedKeys (process_typed false tblC5 "STOP") = [] := by
  decide

/-- Claim C6: with raw mode on, macro matching is bypassed for every
input text and every macro table: the dispatch outcome is the original
text with no action invoked (so the sink receives exactly the original
text whenever it is nonempty, and nothing when it is empty). -/
theorem C6_raw_mode_bypass (tbl : MacroTable) (text : String) :
    process_typed true tbl text = ⟨text, []⟩ ∧
    typedKeys (process_typed true tbl text) =
      (if text = "" then [] else [text]) := by
  constructor
  · simp [process_typed]
  · simp [process_typed, typedKeys]

/-- Claim C9: macro dispatch is deterministic and idempotent: the
outcome of a dispatch does not depend on the invocation log accumulated
by earlier dispatches (the only mutable trace of the dispatcher), and
running the same (text, table, raw-mode) input again immediately after
yields the identical outcome. -/
theorem C9_dispatch_deterministic (rawMode : Bool) (tbl : MacroTable)
    (text : String) (log₁ log₂ : List String) :
    (runDispatch log₁ rawMode tbl text).2 =
      (runDispatch log₂ rawMode tbl text).2 ∧
    (runDispatch (runDispatch log₁ rawMode tbl text).1 rawMode tbl text).2 =
      (runDispatch log₁ rawMode tbl text).2 := by
  exact ⟨rfl, rfl⟩

/-- Claim C1, counterexample: the chord is engaged (ctrl and shift held,
session open) and one frame has been captured; a further press of the
already-held ctrl key re-enters the engage block (chord-engaged is
emitted a second time) and resets the accumulated audio to empty,
refuting the claimed idempotence. -/
theorem C1_counterexample :
    (run cfgCE init [Event.press Key.ctrlR, Event.press Key.shiftR,
        Event.frame [1], Event.press Key.ctrlR]).1.audioData = [] ∧
    (run cfgCE init [Event.press Key.ctrlR, Event.press Key.shiftR,
        Event.frame [1], Event.press Key.ctrlR]).2.count Out.engaged = 2 := by
  decide

/-- Claim C1 as amended: processing a further press event of either
designated key while both designated keys are held and a recording
session is open re-runs engagement: chord-engaged is re-emitted and the
accumulated audio frames are discarded (the session restarts with an
empty buffer); recording stays active. -/
theorem C1_amended (cfg : Config) (s : AppState) (k : Key)
    (hc : s.pressedCtrl = true) (hs : s.pressedShift = true)
    (_hr : s.recording = true) (hk : k = Key.ctrlR ∨ k = Key.shiftR) :
    step cfg s (Event.press k) =
      (⟨true, true, true, []⟩, [Out.engaged]) := by
  rcases hk with rfl | rfl <;> simp [step, onPress, hc, hs]

/-- Witness for C1_amended at a concrete engaged state holding one frame. -/
theorem C1_amended_witness :
    step cfgCE ⟨true, true, true, [[1]]⟩ (Event.press Key.ctrlR) =
      (⟨true, true, true, []⟩, [Out.engaged]) :=
  C1_amended cfgCE ⟨true, true, true, [[1]]⟩ Key.ctrlR rfl rfl rfl
    (Or.inl rfl)

/-- Claim C2, counterexample: the chord engages (both keys pressed), then
the ctrl key is released first; the claim says chord-released fires and
the session ends, but the code emits no chord-released and recording
stays active (only a shift release enters the finalize branch). -/
theorem C2_counterexample :
    (run cfgCE init [Event.press Key.ctrlR, Event.press Key.shiftR,
        Event.release Key.ctrlR]).2.count Out.engaged = 1 ∧
    (run cfgCE init [Event.press Key.ctrlR, Event.press Key.shiftR,
        Event.release Key.ctrlR]).2.count Out.released = 0 ∧
    (run cfgCE init [Event.press Key.ctrlR, Event.press Key.shiftR,
        Event.release Key.ctrlR]).1.recording = true := by
  decide

/-- Claim C2 as amended: chord-engaged fires on a press event iff both
designated keys are held once the press is applied (regardless of
whether the chord was already engaged); chord-released fires on an event
iff that event is a release of the shift key (RECORD_KEY): releasing the
ctrl key never emits chord-released, and every shift release emits it,
even without a prior engagement. -/
theorem C2_amended (cfg : Config) (s : AppState) (e : Event) :
    (Out.released ∈ (step cfg s e).2 ↔ e = Event.release Key.shiftR) ∧
    (Out.engaged ∈ (step cfg s e).2 ↔
      ∃ k, e = Event.press k ∧ (k = Key.ctrlR ∨ s.pressedCtrl = true) ∧
        (k = Key.shiftR ∨ s.pressedShift = true)) := by
  cases e with
  | press k =>
    cases k <;> cases hc : s.pressedCtrl <;> cases hs : s.pressedShift <;>
      simp [step, onPress, hc, hs]
  | release k =>
    cases k <;>
      simp [step, onRelease, engaged_not_mem_finalizeOuts]
  | frame f =>
    cases hr : s.recording <;> simp [step, onFrame, hr]

/-- Claim C8, counterexample: from the initial state (no key ever
pressed), a release event for the shift key enters the finalize branch
and emits chord-released (followed by the no-audio report), refuting the
claim that such a release triggers no finalize path; the state itself is
unchanged. -/
theorem C8_counterexample :
    run cfgCE init [Event.release Key.shiftR] =
      (init, [Out.released, Out.noAudio]) := by
  decide

/-- Claim C8 as amended: a release event for the ctrl key while it is
not recorded as pressed is a complete no-op (state unchanged, nothing
emitted); a release event for the shift key always enters the finalize
branch and emits chord-released, but when the shift key is not recorded
as pressed, recording is off and no audio is buffered, it leaves the
state unchanged and issues no transcription: the key state cannot
underflow (the flags are booleans) and only the no-audio report is
produced. -/
theorem C8_amended (cfg : Config) (s : AppState) :
    (s.pressedCtrl = false → step cfg s (Event.release Key.ctrlR) = (s, [])) ∧
    (s.pressedShift = false → s.recording = false → s.audioData = [] →
      step cfg s (Event.release Key.shiftR) =
        (s, [Out.released, Out.noAudio])) := by
  obtain ⟨pc, ps, rec, ad⟩ := s
  constructor
  · intro h
    subst h
    simp [step, onRelease]
  · intro h1 h2 h3
    subst h1
    subst h2
    subst h3
    simp [step, onRelease, finalizeOuts]

/-- Witness for C8_amended at the initial state. -/
theorem C8_amended_witness :
    step cfgCE init (Event.release Key.ctrlR) = (init, []) ∧
    step cfgCE init (Event.release Key.shiftR) =
      (init, [Out.released, Out.noAudio]) :=
  ⟨(C8_amended cfgCE init).1 rfl, (C8_amended cfgCE init).2 rfl rfl rfl⟩

lemma no_dispatch_finalizeOuts (cfg : Config) (ad : List Frame)
    (hb : ∀ t, cfg.backend ad.flatten = TransResult.ok t → t = "") :
    (∀ t, Out.typed t ∉ finalizeOuts cfg ad) ∧
    (∀ a, Out.invoked a ∉ finalizeOuts cfg ad) := by
  cases ad with
  | nil => simp [finalizeOuts]
  | cons a l =>
    by_cases hlen : (a :: l).flatten.length < MIN_SAMPLES_FOR_TRANSCRIBE
    · constructor <;> intro x <;>
        (simp only [finalizeOuts, if_pos hlen]; simp)
    · rcases hbe : cfg.backend ((a :: l).flatten) with _ | _ | t
      · constructor <;> intro x <;>
          (simp only [finalizeOuts, if_neg hlen, hbe]; simp)
      · constructor <;> intro x <;>
          (simp only [finalizeOuts, if_neg hlen, hbe]; simp)
      · have ht := hb t hbe
        subst ht
        constructor <;> intro x <;>
          (simp only [finalizeOuts, if_neg hlen, hbe, dispatchOuts]; simp)

lemma release_shift_outs (cfg : Config) (s : AppState) :
    (step cfg s (Event.release Key.shiftR)).2 =
      Out.released :: finalizeOuts cfg s.audioData := by
  simp [step, onRelease]

/-- Claim C4: on chord release (the shift release that enters the
finalize branch), when zero frames were captured the concatenation fails
and only the no-audio report is emitted, and when the concatenated clip
has fewer than MIN_SAMPLES_FOR_TRANSCRIBE (8000) samples only the
short-clip report is emitted; in both cases no transcription request is
issued, and the drops are informational reports, not request or
processing failures. -/
theorem C4_short_or_empty_drop (cfg : Config) (s : AppState)
    (h : s.audioData.flatten.length < MIN_SAMPLES_FOR_TRANSCRIBE) :
    (step cfg s (Event.release Key.shiftR)).2 =
      Out.released ::
        (if s.audioData = [] then [Out.noAudio]
         else [Out.finalized s.audioData.flatten,
               Out.shortDrop s.audioData.flatten.length]) ∧
    (∀ c, Out.transcribeReq c ∉ (step cfg s (Event.release Key.shiftR)).2) := by
  rw [release_shift_outs]
  cases had : s.audioData with
  | nil =>
    constructor
    · simp [finalizeOuts]
    · intro c
      simp [finalizeOuts]
  | cons a l =>
    rw [had] at h
    constructor
    · simp only [finalizeOuts, if_pos h]
      simp
    · intro c
      simp only [finalizeOuts, if_pos h]
      simp

/-- Witness for C4 at a one-sample clip (below the 8000-sample floor). -/
theorem C4_witness :
    (step cfgCE ⟨true, true, true, [[1]]⟩ (Event.release Key.shiftR)).2 =
      Out.released ::
        (if ([[1]] : List Frame) = [] then [Out.noAudio]
         else [Out.finalized ([[1]] : List Frame).flatten,
               Out.shortDrop ([[1]] : List Frame).flatten.length]) ∧
    (∀ c, Out.transcribeReq c ∉
        (step cfgCE ⟨true, true, true, [[1]]⟩ (Event.release Key.shiftR)).2) :=
  C4_short_or_empty_drop cfgCE ⟨true, true, true, [[1]]⟩ (by decide)

/-- Claim C7: when the transcription request fails with a transport
error (backend unreachable, connection refused, timeout, or the
exception raised for a non-success status), the release step performs no
macro dispatch and injects no text, and the state left behind engages a
fresh chord immediately: pressing ctrl then shift afterwards emits
chord-engaged. -/
theorem C7_transport_error_recovery (cfg : Config) (s : AppState)
    (h : cfg.backend s.audioData.flatten = TransResult.transportErr) :
    (∀ t, Out.typed t ∉ (step cfg s (Event.release Key.shiftR)).2) ∧
    (∀ a, Out.invoked a ∉ (step cfg s (Event.release Key.shiftR)).2) ∧
    Out.engaged ∈
      (run cfg (step cfg s (Event.release Key.shiftR)).1
        [Event.press Key.ctrlR, Event.press Key.shiftR]).2 := by
  have hb : ∀ t, cfg.backend s.audioData.flatten = TransResult.ok t → t = "" := by
    intro t ht
    rw [h] at ht
    simp at ht
  obtain ⟨h1, h2⟩ := no_dispatch_finalizeOuts cfg s.audioData hb
  refine ⟨?_, ?_, ?_⟩
  · intro t
    rw [release_shift_outs]
    intro hmem
    rcases List.mem_cons.mp hmem with hm | hm
    · simp at hm
    · exact h1 t hm
  · intro a
    rw [release_shift_outs]
    intro hmem
    rcases List.mem_cons.mp hmem with hm | hm
    · simp at hm
    · exact h2 a hm
  · simp [run, step, onRelease, onPress]

/-- Witness for C7 at an 8000-sample clip with an always-failing backend. -/
theorem C7_witness :
    (∀ t, Out.typed t ∉
        (step cfgCE ⟨true, true, true, [List.replicate 8000 0]⟩
          (Event.release Key.shiftR)).2) ∧
    (∀ a, Out.invoked a ∉
        (step cfgCE ⟨true, true, true, [List.replicate 8000 0]⟩
          (Event.release Key.shiftR)).2) ∧
    Out.engaged ∈
      (run cfgCE
        (step cfgCE ⟨true, true, true, [List.replicate 8000 0]⟩
          (Event.release Key.shiftR)).1
        [Event.press Key.ctrlR, Event.press Key.shiftR]).2 :=
  C7_transport_error_recovery cfgCE ⟨true, true, true, [List.replicate 8000 0]⟩
    rfl

/-- A configuration whose macro table is keyed on the empty string and
whose backend always returns an empty transcript, for the C10 witness. -/
def cfgEmptyKey : Config :=
  ⟨false, [("", MacroVal.action "evil")], fun _ => TransResult.ok ""⟩

/-- Claim C10: when the backend returns an empty text field, the result
is dropped before macro dispatch: no keystrokes are injected and no
action is invoked, for every macro table — in particular a macro keyed
on the empty string never fires from an empty transcript. -/
theorem C10_empty_transcript_dropped (cfg : Config) (s : AppState)
    (h : cfg.backend s.audioData.flatten = TransResult.ok "") :
    (∀ t, Out.typed t ∉ (step cfg s (Event.release Key.shiftR)).2) ∧
    (∀ a, Out.invoked a ∉ (step cfg s (Event.release Key.shiftR)).2) := by
  have hb : ∀ t, cfg.backend s.audioData.flatten = TransResult.ok t → t = "" := by
    intro t ht
    rw [h] at ht
    injection ht with h2
    exact h2.symm
  obtain ⟨h1, h2⟩ := no_dispatch_finalizeOuts cfg s.audioData hb
  refine ⟨?_, ?_⟩
  · intro t
    rw [release_shift_outs]
    intro hmem
    rcases List.mem_cons.mp hmem with hm | hm
    · simp at hm
    · exact h1 t hm
  · intro a
    rw [release_shift_outs]
    intro hmem
    rcases List.mem_cons.mp hmem with hm | hm
    · simp at hm
    · exact h2 a hm

/-- Witness for C10: an 8000-sample clip, a backend answering the empty
transcript, and a macro table keyed on the empty string. -/
theorem C10_witness :
    (∀ t, Out.typed t ∉
        (step cfgEmptyKey ⟨true, true, true, [List.replicate 8000 0]⟩
          (Event.release Key.shiftR)).2) ∧
    (∀ a, Out.invoked a ∉
        (step cfgEmptyKey ⟨true, true, true, [List.replicate 8000 0]⟩
          (Event.release Key.shiftR)).2) :=
  C10_empty_transcript_dropped cfgEmptyKey
    ⟨true, true, true, [List.replicate 8000 0]⟩ rfl

lemma finalized_mem_step (cfg : Config) (s : AppState) (e : Event) (c : Frame)
    (h : Out.finalized c ∈ (step cfg s e).2) : c = s.audioData.flatten := by
  cases e with
  | press k =>
    cases k <;> cases hc : s.pressedCtrl <;> cases hs : s.pressedShift <;>
      simp [step, onPress, hc, hs] at h
  | frame f =>
    cases hr : s.recording <;> simp [step, onFrame, hr] at h
  | release k =>
    cases k with
    | shiftR =>
      rw [release_shift_outs] at h
      rcases List.mem_cons.mp h with hm | hm
      · simp at hm
      · exact finalized_mem_finalizeOuts cfg s.audioData c hm
    | ctrlR => simp [step, onRelease] at h
    | other => simp [step, onRelease] at h

lemma step_audio_sub (cfg : Config) (s : AppState) (e : Event) (D : List Frame) :
    List.Sublist ((step cfg s e).1.audioData ++ D)
      (s.audioData ++ (frameContrib s e ++ D)) := by
  cases e with
  | press k =>
    cases k <;> cases hc : s.pressedCtrl <;> cases hs : s.pressedShift <;>
      simp [step, onPress, frameContrib, hc, hs, List.sublist_append_right]
  | release k =>
    cases k <;> simp [step, onRelease, frameContrib]
  | frame f =>
    cases hr : s.recording <;>
      simp [step, onFrame, frameContrib, hr, List.append_assoc]

lemma clips_sublist_aux (cfg : Config) (es : List Event) :
    ∀ (s : AppState) (clip : Frame),
      Out.finalized clip ∈ (run cfg s es).2 →
      ∃ fs : List Frame, clip = fs.flatten ∧
        List.Sublist fs (s.audioData ++ deliveredWhileRec cfg s es) := by
  induction es with
  | nil =>
    intro s clip h
    simp [run] at h
  | cons e rest ih =>
    intro s clip h
    rcases List.mem_append.mp (by simpa [run] using h) with h1 | h1
    · refine ⟨s.audioData, finalized_mem_step cfg s e clip h1, ?_⟩
      exact List.sublist_append_left _ _
    · obtain ⟨fs, hc, hsub⟩ := ih (step cfg s e).1 clip h1
      refine ⟨fs, hc, hsub.trans ?_⟩
      have hdel : deliveredWhileRec cfg s (e :: rest) =
          frameContrib s e ++ deliveredWhileRec cfg (step cfg s e).1 rest := rfl
      rw [hdel]
      exact step_audio_sub cfg s e _

/-- Claim C3, counterexample: ctrl and shift engage the chord, one frame
is delivered while recording, and shift is released, finalizing a clip.
Since the buffer is never cleared at finalize, releasing ctrl, tapping
shift again (no chord, no recording) and releasing it re-enters the
finalize branch and finalizes a second clip made of the same frame: the
frame appears in two finalized clips, not exactly one. -/
theorem C3_counterexample :
    ((run cfgCE init [Event.press Key.ctrlR, Event.press Key.shiftR,
        Event.frame [1], Event.release Key.shiftR, Event.release Key.ctrlR,
        Event.press Key.shiftR, Event.release Key.shiftR]).2.filterMap
      finClip) = [[1], [1]] := by
  decide

/-- Claim C3 as amended: every finalized clip is the concatenation of an
order-preserving sublist of the frames delivered while recording was
active — so frames delivered while not recording appear in no finalized
clip and clip contents respect arrival order — but a recording-time
frame need not appear in exactly one finalized clip: a re-engagement
discards it (zero clips) and a later shift release re-finalizes the
never-cleared buffer (several clips). -/
theorem C3_amended (cfg : Config) (es : List Event) (clip : Frame)
    (h : Out.finalized clip ∈ (run cfg init es).2) :
    ∃ fs : List Frame, clip = fs.flatten ∧
      List.Sublist fs (deliveredWhileRec cfg init es) := by
  obtain ⟨fs, h1, h2⟩ := clips_sublist_aux cfg es init clip h
  exact ⟨fs, h1, by simpa [init] using h2⟩

/-- Witness for C3_amended at a run finalizing one single-frame clip. -/
theorem C3_amended_witness :
    ∃ fs : List Frame, ([5] : Frame) = fs.flatten ∧
      List.Sublist fs (deliveredWhileRec cfgCE init
        [Event.press Key.ctrlR, Event.press Key.shiftR, Event.frame [5],
         Event.release Key.shiftR]) :=
  C3_amended cfgCE
    [Event.press Key.ctrlR, Event.press Key.shiftR, Event.frame [5],
     Event.release Key.shiftR] [5] (by decide)

end VibeVoice
